import Mathlib

/-!
Shallow embedding of the relay client core (`src/client/src/native.rs`) of the
mpc-sdk-framework repository.

The client manages one Noise channel to the relay server and one Noise channel
per peer.  The embedding models:

* the Noise library (`snow`), which is an external dependency, as a
  deterministic stand-in cipher: transport-mode `write_message` appends a
  `TAGLEN`-byte tag (so ciphertext length = plaintext length + `TAGLEN`) and
  `read_message` checks and strips the tag; handshake reads validate the same
  tag shape.  Key material and Diffie-Hellman mixing are abstracted away: no
  claim depends on the byte values of ciphertexts, only on lengths, success
  and failure.
* the shared mutable state (`Arc<RwLock<...>>` for the server channel, the
  peer registry `HashMap<Vec<u8>, ProtocolState>`, and the outbound mpsc
  queue) as one explicit `ClientState` record threaded through every
  operation.  The registry is an association list with HashMap-style
  insert/erase; the outbound queue is a FIFO list (queue sends in the source
  can only fail once the channel is closed, which happens after the event
  loop is dropped and is out of scope).
* Rust panics (`unreachable!`, `panic!`, slice-bound failures) as an explicit
  `Outcome.panic` constructor, and `Result::Err` as `Outcome.err` carrying
  the state at the point of the early return.

Functions named after source items (`encrypt_peer_channel`,
`decrypt_peer_channel`, `server_handshake`, `peer_handshake_responder`,
`peer_handshake_ack`, `handle_relayed_message`, `handle_incoming_message`,
`relay`, `request`, ...) are line-by-line translations of
`src/client/src/native.rs`.  Items from the `mpc_relay_protocol` crate, which
is part of the repository but not under `src/`, are modelled from the spec and
marked as such.
-/

namespace RelayClient

/-- Byte strings are lists of naturals (each entry standing for one byte). -/
abbrev Bytes := List Nat

/-- Noise AEAD authentication tag length in bytes.
Modelled from the spec: `TAGLEN` is a constant of the protocol crate (not
under `src/`); the standard Noise AEAD tag length is 16 bytes. -/
def TAGLEN : Nat := 16

/-- The stand-in authentication tag appended by the model cipher. -/
def noiseTag : Bytes := List.replicate TAGLEN 0

/-- Model of the external snow library's transport-mode state: a pair of
nonce counters.  The cipher itself is the deterministic stand-in described in
the file header. -/
structure NoiseTransportState where
  sendNonce : Nat
  recvNonce : Nat
deriving DecidableEq

/-- Transport-mode `write_message`: ciphertext is plaintext plus the tag, so
its length is plaintext length + `TAGLEN`; the send nonce advances. -/
def NoiseTransportState.write_message (t : NoiseTransportState) (payload : Bytes) :
    Bytes × NoiseTransportState :=
  (payload ++ noiseTag, { t with sendNonce := t.sendNonce + 1 })

/-- Transport-mode `read_message`: fails (bad MAC / short message) unless the
ciphertext is at least `TAGLEN` bytes and ends with the tag; on success the
plaintext is the ciphertext without the tag and the receive nonce advances. -/
def NoiseTransportState.read_message (t : NoiseTransportState) (ciphertext : Bytes) :
    Option (Bytes × NoiseTransportState) :=
  if TAGLEN ≤ ciphertext.length ∧
      ciphertext.drop (ciphertext.length - TAGLEN) = noiseTag then
    some (ciphertext.take (ciphertext.length - TAGLEN),
      { t with recvNonce := t.recvNonce + 1 })
  else
    none

/-- Model of the external snow library's in-progress handshake state. -/
structure NoiseHandshakeState where
  initiator : Bool
deriving DecidableEq

/-- Handshake `read_message`: the inbound handshake message is valid when it
carries the stand-in tag; otherwise the snow error propagates. -/
def NoiseHandshakeState.read_message (h : NoiseHandshakeState) (msg : Bytes) :
    Option NoiseHandshakeState :=
  if TAGLEN ≤ msg.length ∧ msg.drop (msg.length - TAGLEN) = noiseTag then
    some h
  else
    none

/-- The canonical handshake message produced by the stand-in cipher. -/
def handshakeMsg : Bytes := List.replicate 32 1 ++ noiseTag

/-- Handshake `write_message`: the source writes into a fixed 1024-byte
scratch buffer and returns the significant length; the enqueued payload is
the whole buffer. -/
def NoiseHandshakeState.write_message (h : NoiseHandshakeState) :
    (Nat × Bytes) × NoiseHandshakeState :=
  ((handshakeMsg.length,
    handshakeMsg ++ List.replicate (1024 - handshakeMsg.length) 0), h)

/-- `into_transport_mode`: snow fails only when the handshake pattern is
incomplete; at every call site in the source the pattern's final message has
just been processed, so the model makes the conversion total. -/
def NoiseHandshakeState.into_transport_mode (_h : NoiseHandshakeState) :
    NoiseTransportState :=
  ⟨0, 0⟩

/-- `ProtocolState` from the protocol crate as used throughout `native.rs`:
a channel is either mid-handshake or in transport mode. -/
inductive ProtocolState where
  | Handshake (state : NoiseHandshakeState)
  | Transport (state : NoiseTransportState)
deriving DecidableEq

/-- Payload encodings carried by a sealed envelope. -/
inductive Encoding where
  | Noop
  | Blob
  | Json
deriving DecidableEq

/-- `SealedEnvelope`: ciphertext plus framing metadata.  `payload` is an
over-allocated buffer; only the first `length` bytes are significant. -/
structure SealedEnvelope where
  length : Nat
  encoding : Encoding
  payload : Bytes
  broadcast : Bool
deriving DecidableEq

/-- Session identifiers are opaque and compared by value; modelled as `Nat`. -/
abbrev SessionId := Nat

/-- `SessionRequest` payload of `ServerMessage::NewSession`. -/
structure SessionRequest where
  participant_keys : List Bytes
deriving DecidableEq

/-- Modelled from the spec: the session response record carried by
`SessionCreated` / `SessionReady` / `SessionActive`; its fields live in the
protocol crate (not under `src/`), so only the session identifier is kept. -/
structure SessionResponse where
  session_id : SessionId
deriving DecidableEq

/-- The inner plaintext messages exchanged on the encrypted server channel. -/
inductive ServerMessage where
  | NewSession (request : SessionRequest)
  | SessionReadyNotify (id : SessionId)
  | SessionActiveNotify (id : SessionId)
  | SessionConnection (id : SessionId) (peerKey : Bytes)
  | CloseSession (id : SessionId)
  | SessionCreated (response : SessionResponse)
  | SessionReady (response : SessionResponse)
  | SessionActive (response : SessionResponse)
  | SessionFinished (id : SessionId)
  | Error (code : Nat) (message : String)
deriving DecidableEq

/-- Handshake byte-blobs with their significant length. -/
inductive HandshakeMessage where
  | Initiator (len : Nat) (buf : Bytes)
  | Responder (len : Nat) (buf : Bytes)
deriving DecidableEq

/-- Unencrypted framing for handshakes. -/
inductive TransparentMessage where
  | ServerHandshake (message : HandshakeMessage)
  | PeerHandshake (publicKey : Bytes) (message : HandshakeMessage)
deriving DecidableEq

/-- Post-handshake encrypted envelopes addressed to the server or a peer. -/
inductive OpaqueMessage where
  | PeerMessage (publicKey : Bytes) (sessionId : Option SessionId)
      (envelope : SealedEnvelope)
  | ServerMessage (envelope : SealedEnvelope)
deriving DecidableEq

/-- Outbound framed messages (client to server). -/
inductive RequestMessage where
  | Transparent (message : TransparentMessage)
  | Opaque (message : OpaqueMessage)
deriving DecidableEq

/-- Inbound framed messages (server to client); the variants used by the
dispatcher in `native.rs` mirror the outbound ones. -/
inductive ResponseMessage where
  | Transparent (message : TransparentMessage)
  | Opaque (message : OpaqueMessage)
deriving DecidableEq

/-- The client error type (`crate::Error`) restricted to the variants that
the code under `src/` can produce.  `PeerNotFound` carries the peer key
itself; the source carries its hex encoding, which is injective. -/
inductive Error where
  | NotHandshakeState
  | NotTransportState
  | PeerAlreadyExists
  | PeerAlreadyExistsMaybeRace
  | PeerNotFound (key : Bytes)
  | ServerError (code : Nat) (message : String)
  | ProtocolError
  | CodecError
  | TransportError
deriving DecidableEq

/-- Consumer-visible events.  `JsonMessage` carries the raw JSON bytes (the
source wraps them in a `JsonMessage { contents }` record; parsing is deferred
to the consumer). -/
inductive Event where
  | ServerConnected (serverKey : Bytes)
  | PeerConnected (peerKey : Bytes)
  | SessionCreated (response : SessionResponse)
  | SessionReady (response : SessionResponse)
  | SessionActive (response : SessionResponse)
  | SessionFinished (id : SessionId)
  | BinaryMessage (peerKey : Bytes) (message : Bytes)
      (sessionId : Option SessionId)
  | JsonMessage (peerKey : Bytes) (message : Bytes)
      (sessionId : Option SessionId)
deriving DecidableEq

/-- Outcome of a stateful operation: `ok` and `err` carry the state as left
by the operation (mutations through the shared locks persist across an early
`return Err`); `panic` models a Rust panic, which aborts the task, so no
state is observable. -/
inductive Outcome (σ : Type) (α : Type) where
  | ok (state : σ) (value : α)
  | err (state : σ) (error : Error)
  | panic (message : String)
deriving DecidableEq

/-- The peer registry: an association list standing for
`HashMap<Vec<u8>, ProtocolState>`.  HashMap semantics keep keys unique; the
well-formedness predicate `uniqueKeys` below captures that. -/
abbrev PeerMap := List (Bytes × ProtocolState)

/-- Registry lookup (`peers.get`). -/
def lookupPeer : PeerMap → Bytes → Option ProtocolState
  | [], _ => none
  | (k, v) :: rest, key => if k = key then some v else lookupPeer rest key

/-- Registry insert (`peers.insert` / in-place mutation through `get_mut`):
replaces the entry when the key is present, appends otherwise. -/
def insertPeer : PeerMap → Bytes → ProtocolState → PeerMap
  | [], key, v => [(key, v)]
  | (k, w) :: rest, key, v =>
      if k = key then (key, v) :: rest else (k, w) :: insertPeer rest key v

/-- Registry removal (`peers.remove`): removes the entry for the key. -/
def erasePeer : PeerMap → Bytes → PeerMap
  | [], _ => []
  | (k, w) :: rest, key =>
      if k = key then rest else (k, w) :: erasePeer rest key

/-- HashMap well-formedness: each key occurs at most once. -/
def uniqueKeys : PeerMap → Prop
  | [] => True
  | (k, _) :: rest => lookupPeer rest k = none ∧ uniqueKeys rest

/-- The shared state of the client: the facade (`NativeClient`) and the event
loop literally share the server channel, the peer registry and the outbound
queue through `Arc<RwLock<..>>` and the mpsc sender, so one record serves
both.  `serverPublicKey` is the configured expected server key
(`ClientOptions::server_public_key`). -/
structure ClientState where
  serverPublicKey : Bytes
  server : Option ProtocolState
  peers : PeerMap
  outbound : List RequestMessage
deriving DecidableEq

/-- `NativeClient::new` (state part): after a successful websocket upgrade
the server channel is constructed as `Some(ProtocolState::Handshake(..))`,
the registry is empty and the outbound queue is empty.  Transport
establishment and the HTTP 101 check are out of scope of the claims. -/
def NativeClient.new (serverPublicKey : Bytes) : ClientState :=
  { serverPublicKey
    server := some (ProtocolState.Handshake ⟨true⟩)
    peers := []
    outbound := [] }

/-- `encrypt_peer_channel` (free function in `native.rs`): in transport mode,
write the payload through the Noise transport into a buffer of size
`payload.len() + TAGLEN` and wrap the result in an `Opaque::PeerMessage`
request; otherwise fail with `NotTransportState`.  The stand-in ciphertext
exactly fills the buffer, as the real one does. -/
def encrypt_peer_channel (publicKey : Bytes) (peer : ProtocolState)
    (payload : Bytes) (encoding : Encoding) (broadcast : Bool)
    (sessionId : Option SessionId) : Outcome ProtocolState RequestMessage :=
  match peer with
  | ProtocolState.Transport transport =>
      let result := transport.write_message payload
      let envelope : SealedEnvelope :=
        { length := result.1.length
          encoding
          payload := result.1
          broadcast }
      Outcome.ok (ProtocolState.Transport result.2)
        (RequestMessage.Opaque
          (OpaqueMessage.PeerMessage publicKey sessionId envelope))
  | _ => Outcome.err peer Error.NotTransportState

/-- `decrypt_peer_channel` (free function in `native.rs`): in transport mode,
slice the first `envelope.length` bytes of the payload buffer (a Rust slice
panic when `length` exceeds the buffer), read them through the Noise
transport into a scratch buffer of size `envelope.length`, then truncate the
scratch buffer to `contents.len() - TAGLEN = envelope.length - TAGLEN` bytes.
The subtraction cannot underflow on the success path because `read_message`
rejects ciphertexts shorter than `TAGLEN`. -/
def decrypt_peer_channel (peer : ProtocolState) (envelope : SealedEnvelope) :
    Outcome ProtocolState Bytes :=
  match peer with
  | ProtocolState.Transport transport =>
      if envelope.length ≤ envelope.payload.length then
        match transport.read_message (envelope.payload.take envelope.length) with
        | some result =>
            let contents :=
              result.1 ++ (List.replicate envelope.length 0).drop result.1.length
            let newLength := contents.length - TAGLEN
            Outcome.ok (ProtocolState.Transport result.2) (contents.take newLength)
        | none => Outcome.err (ProtocolState.Transport transport) Error.ProtocolError
      else
        Outcome.panic "index out of bounds"
  | _ => Outcome.err peer Error.NotTransportState

/-- Modelled from the spec: `encrypt_server_channel` from the protocol
crate's `channel` module (not under `src/`): valid only in transport mode,
produces a `Blob`-encoded sealed envelope whose length is the ciphertext
length of Noise `write_message`. -/
def encrypt_server_channel (server : ProtocolState) (payload : Bytes)
    (broadcast : Bool) : Outcome ProtocolState SealedEnvelope :=
  match server with
  | ProtocolState.Transport transport =>
      let result := transport.write_message payload
      Outcome.ok (ProtocolState.Transport result.2)
        { length := result.1.length
          encoding := Encoding.Blob
          payload := result.1
          broadcast }
  | _ => Outcome.err server Error.NotTransportState

/-- Modelled from the spec: `decrypt_server_channel` from the protocol
crate's `channel` module (not under `src/`): valid only in transport mode,
returns the envelope's encoding together with the decrypted plaintext. -/
def decrypt_server_channel (server : ProtocolState) (envelope : SealedEnvelope) :
    Outcome ProtocolState (Encoding × Bytes) :=
  match server with
  | ProtocolState.Transport transport =>
      if envelope.length ≤ envelope.payload.length then
        match transport.read_message (envelope.payload.take envelope.length) with
        | some result =>
            Outcome.ok (ProtocolState.Transport result.2)
              (envelope.encoding, result.1)
        | none => Outcome.err (ProtocolState.Transport transport) Error.ProtocolError
      else
        Outcome.panic "index out of bounds"
  | _ => Outcome.err server Error.NotTransportState

/-- Modelled from the spec: the deterministic binary codec (`encode`) of the
protocol crate (not under `src/`), restricted to `ServerMessage`.  The claims
never inspect encoded bytes, so a simple tagged flattening suffices. -/
def encode : ServerMessage → Bytes
  | ServerMessage.NewSession request =>
      0 :: request.participant_keys.foldr (fun k acc => k.length :: k ++ acc) []
  | ServerMessage.SessionReadyNotify id => [1, id]
  | ServerMessage.SessionActiveNotify id => [2, id]
  | ServerMessage.SessionConnection id peerKey => 3 :: id :: peerKey
  | ServerMessage.CloseSession id => [4, id]
  | ServerMessage.SessionCreated response => [5, response.session_id]
  | ServerMessage.SessionReady response => [6, response.session_id]
  | ServerMessage.SessionActive response => [7, response.session_id]
  | ServerMessage.SessionFinished id => [8, id]
  | ServerMessage.Error code _ => [9, code]

/-- Modelled from the spec: the codec's `decode` for inbound `ServerMessage`
plaintexts (protocol crate, not under `src/`); decode failure surfaces as a
codec error in the dispatcher. -/
def decodeServerMessage : Bytes → Option ServerMessage
  | [5, r] => some (ServerMessage.SessionCreated ⟨r⟩)
  | [6, r] => some (ServerMessage.SessionReady ⟨r⟩)
  | [7, r] => some (ServerMessage.SessionActive ⟨r⟩)
  | [8, id] => some (ServerMessage.SessionFinished id)
  | [9, code] => some (ServerMessage.Error code "")
  | _ => none

/-- `NativeClient::connect`: if the server channel is mid-handshake, write
the first Noise message and enqueue it as
`Transparent::ServerHandshake(Initiator(len, buf))`; otherwise fail with
`NotHandshakeState` (the source matches through `&mut *state`, so the state
is left untouched on the error path). -/
def connect (st : ClientState) : Outcome ClientState Unit :=
  match st.server with
  | some (ProtocolState.Handshake initiator) =>
      let written := initiator.write_message
      Outcome.ok
        { st with
          server := some (ProtocolState.Handshake written.2)
          outbound := st.outbound ++
            [RequestMessage.Transparent
              (TransparentMessage.ServerHandshake
                (HandshakeMessage.Initiator written.1.1 written.1.2))] }
        ()
  | _ => Outcome.err st Error.NotHandshakeState

/-- `NativeClient::connect_peer`: fail with `PeerAlreadyExists` if the key is
already registered; otherwise build a Noise initiator, store it in the
registry (`entry().or_insert`), write its first message and enqueue it as
`Transparent::PeerHandshake{public_key, Initiator(len, buf)}`.  The source's
`NotHandshakeState` arm after `or_insert` is unreachable because the entry
was just inserted as `Handshake`. -/
def connect_peer (st : ClientState) (publicKey : Bytes) :
    Outcome ClientState Unit :=
  match lookupPeer st.peers publicKey with
  | some _ => Outcome.err st Error.PeerAlreadyExists
  | none =>
      let handshake : NoiseHandshakeState := ⟨true⟩
      let written := handshake.write_message
      Outcome.ok
        { st with
          peers := insertPeer st.peers publicKey
            (ProtocolState.Handshake written.2)
          outbound := st.outbound ++
            [RequestMessage.Transparent
              (TransparentMessage.PeerHandshake publicKey
                (HandshakeMessage.Initiator written.1.1 written.1.2))] }
        ()

/-- `NativeClient::relay`: look the peer up, encrypt via
`encrypt_peer_channel` (mutating the peer's transport state in place) and
enqueue the resulting `Opaque::PeerMessage`; `PeerNotFound` when the key is
absent.  On an encryption error nothing is enqueued and the registry is
unchanged. -/
def relay (st : ClientState) (publicKey : Bytes) (payload : Bytes)
    (encoding : Encoding) (broadcast : Bool) (sessionId : Option SessionId) :
    Outcome ClientState Unit :=
  match lookupPeer st.peers publicKey with
  | some peer =>
      match encrypt_peer_channel publicKey peer payload encoding broadcast
          sessionId with
      | Outcome.ok peer2 request =>
          Outcome.ok
            { st with
              peers := insertPeer st.peers publicKey peer2
              outbound := st.outbound ++ [request] }
            ()
      | Outcome.err _ e => Outcome.err st e
      | Outcome.panic m => Outcome.panic m
  | none => Outcome.err st (Error.PeerNotFound publicKey)

/-- `NativeClient::send`: serialize the value to JSON bytes (serde_json is
external; the value is represented here by its JSON byte serialization) and
relay it with `encoding = Json`, `broadcast = false`. -/
def send (st : ClientState) (publicKey : Bytes) (jsonPayload : Bytes)
    (sessionId : Option SessionId) : Outcome ClientState Unit :=
  relay st publicKey jsonPayload Encoding.Json false sessionId

/-- `NativeClient::send_blob`: relay raw bytes with `encoding = Blob`,
`broadcast = false`. -/
def send_blob (st : ClientState) (publicKey : Bytes) (payload : Bytes)
    (sessionId : Option SessionId) : Outcome ClientState Unit :=
  relay st publicKey payload Encoding.Blob false sessionId

/-- `NativeClient::request`: encode the server message, encrypt it on the
server channel and enqueue `Opaque::ServerMessage(envelope)`; when the server
channel option is `None` the source hits `unreachable!()`, which aborts. -/
def request (st : ClientState) (message : ServerMessage) :
    Outcome ClientState Unit :=
  match st.server with
  | some server =>
      match encrypt_server_channel server (encode message) false with
      | Outcome.ok server2 envelope =>
          Outcome.ok
            { st with
              server := some server2
              outbound := st.outbound ++
                [RequestMessage.Opaque (OpaqueMessage.ServerMessage envelope)] }
            ()
      | Outcome.err _ e => Outcome.err st e
      | Outcome.panic m => Outcome.panic m
  | none => Outcome.panic "internal error: entered unreachable code"

/-- `EventLoop::server_handshake`: `state.take()` removes the server channel
state up front; only the successful branch stores a value back, so both the
wrong-state branch and a Noise read failure leave the channel `None`.  On
success the channel becomes `Transport` and a `ServerConnected` event
carrying the configured server public key is returned. -/
def server_handshake (st : ClientState) (len : Nat) (buf : Bytes) :
    Outcome ClientState Event :=
  match st.server with
  | some (ProtocolState.Handshake initiator) =>
      if len ≤ buf.length then
        match initiator.read_message (buf.take len) with
        | some initiator2 =>
            Outcome.ok
              { st with
                server := some
                  (ProtocolState.Transport initiator2.into_transport_mode) }
              (Event.ServerConnected st.serverPublicKey)
        | none => Outcome.err { st with server := none } Error.ProtocolError
      else
        Outcome.panic "index out of bounds"
  | _ => Outcome.err { st with server := none } Error.NotHandshakeState

/-- `EventLoop::peer_handshake_responder`: fail with
`PeerAlreadyExistsMaybeRace` when the key is already registered (before any
mutation); otherwise build a responder, consume the initiator message, write
the reply, transition directly to `Transport`, insert the entry, enqueue the
reply as `Transparent::PeerHandshake{.., Responder(..)}` and return a
`PeerConnected` event. -/
def peer_handshake_responder (st : ClientState) (publicKey : Bytes)
    (len : Nat) (buf : Bytes) : Outcome ClientState (Option Event) :=
  match lookupPeer st.peers publicKey with
  | some _ => Outcome.err st Error.PeerAlreadyExistsMaybeRace
  | none =>
      let responder : NoiseHandshakeState := ⟨false⟩
      if len ≤ buf.length then
        match responder.read_message (buf.take len) with
        | some responder2 =>
            let written := responder2.write_message
            Outcome.ok
              { st with
                peers := insertPeer st.peers publicKey
                  (ProtocolState.Transport written.2.into_transport_mode)
                outbound := st.outbound ++
                  [RequestMessage.Transparent
                    (TransparentMessage.PeerHandshake publicKey
                      (HandshakeMessage.Responder written.1.1 written.1.2))] }
              (some (Event.PeerConnected publicKey))
        | none => Outcome.err st Error.ProtocolError
      else
        Outcome.panic "index out of bounds"

/-- `EventLoop::peer_handshake_ack`: `peers.remove` takes the entry out
(`PeerNotFound` when absent); only the `Handshake` branch that completes the
Noise read reinserts the entry as `Transport`, so the wrong-state branch and
a Noise read failure leave the key absent from the registry. -/
def peer_handshake_ack (st : ClientState) (publicKey : Bytes) (len : Nat)
    (buf : Bytes) : Outcome ClientState Event :=
  match lookupPeer st.peers publicKey with
  | none => Outcome.err st (Error.PeerNotFound publicKey)
  | some peer =>
      let peers0 := erasePeer st.peers publicKey
      match peer with
      | ProtocolState.Handshake initiator =>
          if len ≤ buf.length then
            match initiator.read_message (buf.take len) with
            | some initiator2 =>
                Outcome.ok
                  { st with
                    peers := insertPeer peers0 publicKey
                      (ProtocolState.Transport initiator2.into_transport_mode) }
                  (Event.PeerConnected publicKey)
            | none =>
                Outcome.err { st with peers := peers0 } Error.ProtocolError
          else
            Outcome.panic "index out of bounds"
      | ProtocolState.Transport _ =>
          Outcome.err { st with peers := peers0 } Error.NotHandshakeState

/-- `EventLoop::handle_relayed_message`: look the peer up (`PeerNotFound`
when absent), decrypt the envelope, then interpret its encoding: `Blob` and
`Json` produce events, `Noop` hits `unreachable!()`, which aborts. -/
def handle_relayed_message (st : ClientState) (publicKey : Bytes)
    (envelope : SealedEnvelope) (sessionId : Option SessionId) :
    Outcome ClientState Event :=
  match lookupPeer st.peers publicKey with
  | some peer =>
      match decrypt_peer_channel peer envelope with
      | Outcome.ok peer2 contents =>
          let st2 : ClientState :=
            { st with peers := insertPeer st.peers publicKey peer2 }
          match envelope.encoding with
          | Encoding.Noop => Outcome.panic "internal error: entered unreachable code"
          | Encoding.Blob =>
              Outcome.ok st2 (Event.BinaryMessage publicKey contents sessionId)
          | Encoding.Json =>
              Outcome.ok st2 (Event.JsonMessage publicKey contents sessionId)
      | Outcome.err _ e => Outcome.err st e
      | Outcome.panic m => Outcome.panic m
  | none => Outcome.err st (Error.PeerNotFound publicKey)

/-- `EventLoop::handle_server_channel_message`: dispatch of the decrypted
inner server message; `Error` becomes a client error (yielded on the stream),
session lifecycle notifications become events, everything else is silently
consumed. -/
def handle_server_channel_message (st : ClientState) (message : ServerMessage) :
    Outcome ClientState (Option Event) :=
  match message with
  | ServerMessage.Error code text =>
      Outcome.err st (Error.ServerError code text)
  | ServerMessage.SessionCreated response =>
      Outcome.ok st (some (Event.SessionCreated response))
  | ServerMessage.SessionReady response =>
      Outcome.ok st (some (Event.SessionReady response))
  | ServerMessage.SessionActive response =>
      Outcome.ok st (some (Event.SessionActive response))
  | ServerMessage.SessionFinished id =>
      Outcome.ok st (some (Event.SessionFinished id))
  | _ => Outcome.ok st none

/-- `EventLoop::handle_incoming_message`: the five handled shapes, the
`unreachable!()` on an absent server channel, the
`panic!("unexpected encoding received from server")` for a non-`Blob` inner
encoding, and the final `panic!("unhandled message")` catch-all. -/
def handle_incoming_message (st : ClientState) (incoming : ResponseMessage) :
    Outcome ClientState (Option Event) :=
  match incoming with
  | ResponseMessage.Transparent
      (TransparentMessage.ServerHandshake
        (HandshakeMessage.Responder len buf)) =>
      match server_handshake st len buf with
      | Outcome.ok st2 event => Outcome.ok st2 (some event)
      | Outcome.err st2 e => Outcome.err st2 e
      | Outcome.panic m => Outcome.panic m
  | ResponseMessage.Transparent
      (TransparentMessage.PeerHandshake publicKey
        (HandshakeMessage.Initiator len buf)) =>
      peer_handshake_responder st publicKey len buf
  | ResponseMessage.Transparent
      (TransparentMessage.PeerHandshake publicKey
        (HandshakeMessage.Responder len buf)) =>
      match peer_handshake_ack st publicKey len buf with
      | Outcome.ok st2 event => Outcome.ok st2 (some event)
      | Outcome.err st2 e => Outcome.err st2 e
      | Outcome.panic m => Outcome.panic m
  | ResponseMessage.Opaque
      (OpaqueMessage.PeerMessage publicKey sessionId envelope) =>
      match handle_relayed_message st publicKey envelope sessionId with
      | Outcome.ok st2 event => Outcome.ok st2 (some event)
      | Outcome.err st2 e => Outcome.err st2 e
      | Outcome.panic m => Outcome.panic m
  | ResponseMessage.Opaque (OpaqueMessage.ServerMessage envelope) =>
      match st.server with
      | some server =>
          match decrypt_server_channel server envelope with
          | Outcome.ok server2 decrypted =>
              let st2 : ClientState := { st with server := some server2 }
              match decrypted.1 with
              | Encoding.Blob =>
                  match decodeServerMessage decrypted.2 with
                  | some message => handle_server_channel_message st2 message
                  | none => Outcome.err st2 Error.CodecError
              | _ => Outcome.panic "unexpected encoding received from server"
          | Outcome.err _ e => Outcome.err st e
          | Outcome.panic m => Outcome.panic m
      | none => Outcome.panic "internal error: entered unreachable code"
  | _ => Outcome.panic "unhandled message"

/-- The operations of the client facade and of the event-loop dispatcher,
acting on the shared state.  `requestOp` subsumes `new_session`,
`session_ready_notify`, `session_active_notify`,
`register_session_connection` and `close_session`, which all call
`NativeClient::request` with their respective `ServerMessage`; `relayOp`
subsumes the per-recipient steps of `broadcast`/`broadcast_blob`;
`dispatch` is the event loop's `handle_incoming_message`. -/
inductive ClientOp where
  | connectOp
  | connectPeer (publicKey : Bytes)
  | sendOp (publicKey : Bytes) (jsonPayload : Bytes) (sessionId : Option SessionId)
  | sendBlob (publicKey : Bytes) (payload : Bytes) (sessionId : Option SessionId)
  | relayOp (publicKey : Bytes) (payload : Bytes) (encoding : Encoding)
      (broadcast : Bool) (sessionId : Option SessionId)
  | requestOp (message : ServerMessage)
  | dispatch (incoming : ResponseMessage)
deriving DecidableEq

/-- Apply one operation to the shared state. -/
def applyOp (st : ClientState) : ClientOp → Outcome ClientState (Option Event)
  | ClientOp.connectOp =>
      match connect st with
      | Outcome.ok st2 _ => Outcome.ok st2 none
      | Outcome.err st2 e => Outcome.err st2 e
      | Outcome.panic m => Outcome.panic m
  | ClientOp.connectPeer publicKey =>
      match connect_peer st publicKey with
      | Outcome.ok st2 _ => Outcome.ok st2 none
      | Outcome.err st2 e => Outcome.err st2 e
      | Outcome.panic m => Outcome.panic m
  | ClientOp.sendOp publicKey jsonPayload sessionId =>
      match send st publicKey jsonPayload sessionId with
      | Outcome.ok st2 _ => Outcome.ok st2 none
      | Outcome.err st2 e => Outcome.err st2 e
      | Outcome.panic m => Outcome.panic m
  | ClientOp.sendBlob publicKey payload sessionId =>
      match send_blob st publicKey payload sessionId with
      | Outcome.ok st2 _ => Outcome.ok st2 none
      | Outcome.err st2 e => Outcome.err st2 e
      | Outcome.panic m => Outcome.panic m
  | ClientOp.relayOp publicKey payload encoding broadcast sessionId =>
      match relay st publicKey payload encoding broadcast sessionId with
      | Outcome.ok st2 _ => Outcome.ok st2 none
      | Outcome.err st2 e => Outcome.err st2 e
      | Outcome.panic m => Outcome.panic m
  | ClientOp.requestOp message =>
      match request st message with
      | Outcome.ok st2 _ => Outcome.ok st2 none
      | Outcome.err st2 e => Outcome.err st2 e
      | Outcome.panic m => Outcome.panic m
  | ClientOp.dispatch incoming => handle_incoming_message st incoming

/-- The state after an operation: both `Ok` and `Err` leave the shared state
as the operation left it; a panic aborts the process, so no later state
exists (the branch is kept total by returning the prior state). -/
def stepState (st : ClientState) (op : ClientOp) : ClientState :=
  match applyOp st op with
  | Outcome.ok st2 _ => st2
  | Outcome.err st2 _ => st2
  | Outcome.panic _ => st

/-- The full state owned by the running event loop: the shared client state
plus the decoded-message queue (`message_tx`/`message_rx`). -/
structure LoopState where
  client : ClientState
  msgQueue : List ResponseMessage
deriving DecidableEq

/-- One ready source in the event loop's `select!`.  A binary websocket frame
is represented by its decode image (`none` = decode failure); the codec is
the protocol crate's, outside `src/`.  `outboundItem`'s flag records whether
encode + send + flush succeeded.  `wsClosed` is `ws_reader.next()`
returning `None`: the transport read half has closed.  `outboundClosed` is
`outbound_rx.recv()` returning `None`.  `decodedReady` services the head of
the decoded-message queue. -/
inductive LoopInput where
  | wsBinary (decoded : Option ResponseMessage)
  | wsNonBinary
  | wsError
  | wsClosed
  | outboundItem (message : RequestMessage) (sendOk : Bool)
  | outboundClosed
  | decodedReady
deriving DecidableEq

/-- What one iteration of the loop produced: the successor state, the
`Result<Event>` items yielded to the stream this iteration (`Sum.inl` an
error, `Sum.inr` an event), and whether the generator continues (`false`
would mean the loop exited and the stream ended). -/
structure StepOut where
  state : LoopState
  yields : List (Sum Error Event)
  continues : Bool
deriving DecidableEq

/-- Result of one loop iteration; `panicked` when dispatch panicked, which
tears the task down. -/
inductive RunStep where
  | next (out : StepOut)
  | panicked (message : String)
deriving DecidableEq

/-- One iteration of the `loop { select!(..) }` in `EventLoop::run`: every
arm falls through to the next iteration (`continues = true`); in particular
the `None` arms — including the transport read half closing — are matched by
`_ => {}` and neither yield nor break. -/
def runStep (st : LoopState) : LoopInput → RunStep
  | LoopInput.wsBinary (some response) =>
      RunStep.next ⟨{ st with msgQueue := st.msgQueue ++ [response] }, [], true⟩
  | LoopInput.wsBinary none =>
      RunStep.next ⟨st, [Sum.inl Error.CodecError], true⟩
  | LoopInput.wsNonBinary => RunStep.next ⟨st, [], true⟩
  | LoopInput.wsError => RunStep.next ⟨st, [Sum.inl Error.TransportError], true⟩
  | LoopInput.wsClosed => RunStep.next ⟨st, [], true⟩
  | LoopInput.outboundItem _ sendOk =>
      if sendOk then RunStep.next ⟨st, [], true⟩
      else RunStep.next ⟨st, [Sum.inl Error.TransportError], true⟩
  | LoopInput.outboundClosed => RunStep.next ⟨st, [], true⟩
  | LoopInput.decodedReady =>
      match st.msgQueue with
      | [] => RunStep.next ⟨st, [], true⟩
      | response :: rest =>
          match handle_incoming_message st.client response with
          | Outcome.ok client2 (some event) =>
              RunStep.next ⟨⟨client2, rest⟩, [Sum.inr event], true⟩
          | Outcome.ok client2 none =>
              RunStep.next ⟨⟨client2, rest⟩, [], true⟩
          | Outcome.err client2 e =>
              RunStep.next ⟨⟨client2, rest⟩, [Sum.inl e], true⟩
          | Outcome.panic m => RunStep.panicked m

/-- Registry part of the transport-monotonicity relation: a key that was in
`Transport` before is, if still present afterwards, in `Transport`. -/
def peersPreserved (ps ps2 : PeerMap) : Prop :=
  ∀ k t, lookupPeer ps k = some (ProtocolState.Transport t) →
    ∀ s, lookupPeer ps2 k = some s → ∃ u, s = ProtocolState.Transport u

/-- Server-channel part of the transport-monotonicity relation. -/
def serverPreserved (o o2 : Option ProtocolState) : Prop :=
  ∀ t, o = some (ProtocolState.Transport t) →
    ∀ s, o2 = some s → ∃ u, s = ProtocolState.Transport u

/-- A state transition never moves a channel that was in `Transport` back to
`Handshake`: if the channel is still present it is still in `Transport`
(being removed outright is allowed — see the counterexample for C2). -/
def transportPreserved (st st2 : ClientState) : Prop :=
  peersPreserved st.peers st2.peers ∧ serverPreserved st.server st2.server

/-- Lift `transportPreserved` over an operation outcome; a panic aborts the
process, so no later state is observable. -/
def outcomePreserved {α : Type} (st : ClientState) :
    Outcome ClientState α → Prop
  | Outcome.ok st2 _ => transportPreserved st st2
  | Outcome.err st2 _ => transportPreserved st st2
  | Outcome.panic _ => True

theorem lookup_insertPeer_self (ps : PeerMap) (k : Bytes) (v : ProtocolState) :
    lookupPeer (insertPeer ps k v) k = some v := by
  induction ps with
  | nil => simp [insertPeer, lookupPeer]
  | cons hd tl ih =>
      obtain ⟨k2, w⟩ := hd
      by_cases h : k2 = k
      · simp [insertPeer, h, lookupPeer]
      · simp [insertPeer, h, lookupPeer, ih]

theorem lookup_insertPeer_ne (ps : PeerMap) (k k2 : Bytes) (v : ProtocolState)
    (h : k2 ≠ k) : lookupPeer (insertPeer ps k v) k2 = lookupPeer ps k2 := by
  induction ps with
  | nil => simp [insertPeer, lookupPeer, if_neg (Ne.symm h)]
  | cons hd tl ih =>
      obtain ⟨k3, w⟩ := hd
      by_cases h3 : k3 = k
      · subst h3
        simp [insertPeer, lookupPeer, if_neg (Ne.symm h)]
      · by_cases h2 : k3 = k2
        · simp [insertPeer, h3, lookupPeer, h2, h]
        · simp [insertPeer, h3, lookupPeer, h2, ih]

theorem lookup_erasePeer_ne (ps : PeerMap) (k k2 : Bytes) (h : k2 ≠ k) :
    lookupPeer (erasePeer ps k) k2 = lookupPeer ps k2 := by
  induction ps with
  | nil => simp [erasePeer]
  | cons hd tl ih =>
      obtain ⟨k3, w⟩ := hd
      by_cases h3 : k3 = k
      · subst h3
        simp [erasePeer, lookupPeer, if_neg (fun hh : k3 = k2 => h (hh ▸ rfl))]
      · by_cases h2 : k3 = k2
        · simp [erasePeer, h3, lookupPeer, h2, h]
        · simp [erasePeer, h3, lookupPeer, h2, ih]

theorem lookup_erasePeer_self (ps : PeerMap) (k : Bytes) (h : uniqueKeys ps) :
    lookupPeer (erasePeer ps k) k = none := by
  induction ps with
  | nil => simp [erasePeer, lookupPeer]
  | cons hd tl ih =>
      obtain ⟨k3, w⟩ := hd
      simp only [uniqueKeys] at h
      by_cases h3 : k3 = k
      · subst h3
        simpa [erasePeer] using h.1
      · simp [erasePeer, h3, lookupPeer, ih h.2]

theorem peersPreserved_refl (ps : PeerMap) : peersPreserved ps ps := by
  intro k t h1 s h2
  rw [h1] at h2
  exact ⟨t, (Option.some.inj h2).symm⟩

theorem peersPreserved_insert_transport (ps : PeerMap) (k : Bytes)
    (u : NoiseTransportState) :
    peersPreserved ps (insertPeer ps k (ProtocolState.Transport u)) := by
  intro k2 t h1 s h2
  by_cases hk : k2 = k
  · subst hk
    rw [lookup_insertPeer_self] at h2
    exact ⟨u, (Option.some.inj h2).symm⟩
  · rw [lookup_insertPeer_ne ps k k2 _ hk, h1] at h2
    exact ⟨t, (Option.some.inj h2).symm⟩

theorem peersPreserved_insert_of_absent (ps : PeerMap) (k : Bytes)
    (v : ProtocolState) (h : lookupPeer ps k = none) :
    peersPreserved ps (insertPeer ps k v) := by
  intro k2 t h1 s h2
  by_cases hk : k2 = k
  · subst hk
    rw [h] at h1
    cases h1
  · rw [lookup_insertPeer_ne ps k k2 _ hk, h1] at h2
    exact ⟨t, (Option.some.inj h2).symm⟩

theorem peersPreserved_erase (ps : PeerMap) (k : Bytes) (hu : uniqueKeys ps) :
    peersPreserved ps (erasePeer ps k) := by
  intro k2 t h1 s h2
  by_cases hk : k2 = k
  · subst hk
    rw [lookup_erasePeer_self ps k2 hu] at h2
    cases h2
  · rw [lookup_erasePeer_ne ps k k2 hk, h1] at h2
    exact ⟨t, (Option.some.inj h2).symm⟩

theorem peersPreserved_insert_erase_transport (ps : PeerMap) (k : Bytes)
    (u : NoiseTransportState) :
    peersPreserved ps (insertPeer (erasePeer ps k) k (ProtocolState.Transport u)) := by
  intro k2 t h1 s h2
  by_cases hk : k2 = k
  · subst hk
    rw [lookup_insertPeer_self] at h2
    exact ⟨u, (Option.some.inj h2).symm⟩
  · rw [lookup_insertPeer_ne _ k k2 _ hk, lookup_erasePeer_ne ps k k2 hk, h1] at h2
    exact ⟨t, (Option.some.inj h2).symm⟩

theorem serverPreserved_refl (o : Option ProtocolState) : serverPreserved o o := by
  intro t h1 s h2
  rw [h1] at h2
  exact ⟨t, (Option.some.inj h2).symm⟩

theorem serverPreserved_none (o : Option ProtocolState) :
    serverPreserved o none := by
  intro t _ s h2
  cases h2

theorem serverPreserved_transport (o : Option ProtocolState)
    (u : NoiseTransportState) :
    serverPreserved o (some (ProtocolState.Transport u)) := by
  intro t _ s h2
  exact ⟨u, (Option.some.inj h2).symm⟩

theorem serverPreserved_of_handshake_before (o o2 : Option ProtocolState)
    (hs : NoiseHandshakeState) (h : o = some (ProtocolState.Handshake hs)) :
    serverPreserved o o2 := by
  intro t ht s _
  rw [h] at ht
  cases ht

theorem transportPreserved_refl (st : ClientState) : transportPreserved st st :=
  ⟨peersPreserved_refl st.peers, serverPreserved_refl st.server⟩

theorem outcomePreserved_ok {α : Type} (st st2 : ClientState) (v : α)
    (h : transportPreserved st st2) : outcomePreserved st (Outcome.ok st2 v) := h

theorem outcomePreserved_err {α : Type} (st st2 : ClientState) (e : Error)
    (h : transportPreserved st st2) :
    outcomePreserved (α := α) st (Outcome.err st2 e) := h

theorem outcomePreserved_panic {α : Type} (st : ClientState) (m : String) :
    outcomePreserved (α := α) st (Outcome.panic m) := trivial

theorem encrypt_peer_channel_ok_transport (publicKey : Bytes)
    (peer : ProtocolState) (payload : Bytes) (encoding : Encoding)
    (broadcast : Bool) (sessionId : Option SessionId) (peer2 : ProtocolState)
    (req : RequestMessage)
    (h : encrypt_peer_channel publicKey peer payload encoding broadcast
      sessionId = Outcome.ok peer2 req) :
    ∃ u, peer2 = ProtocolState.Transport u := by
  cases peer with
  | Handshake hs => simp [encrypt_peer_channel] at h
  | Transport t =>
      simp only [encrypt_peer_channel, Outcome.ok.injEq] at h
      exact ⟨_, h.1.symm⟩

theorem decrypt_peer_channel_ok_transport (peer : ProtocolState)
    (envelope : SealedEnvelope) (peer2 : ProtocolState) (contents : Bytes)
    (h : decrypt_peer_channel peer envelope = Outcome.ok peer2 contents) :
    ∃ u, peer2 = ProtocolState.Transport u := by
  cases peer with
  | Handshake hs => simp [decrypt_peer_channel] at h
  | Transport t =>
      by_cases hle : envelope.length ≤ envelope.payload.length
      · simp only [decrypt_peer_channel, if_pos hle] at h
        cases hr : t.read_message (envelope.payload.take envelope.length) with
        | none => rw [hr] at h; cases h
        | some result =>
            rw [hr] at h
            simp only [Outcome.ok.injEq] at h
            exact ⟨_, h.1.symm⟩
      · simp only [decrypt_peer_channel, if_neg hle] at h
        cases h

theorem decrypt_server_channel_ok_transport (server : ProtocolState)
    (envelope : SealedEnvelope) (server2 : ProtocolState)
    (decrypted : Encoding × Bytes)
    (h : decrypt_server_channel server envelope = Outcome.ok server2 decrypted) :
    ∃ u, server2 = ProtocolState.Transport u := by
  cases server with
  | Handshake hs => simp [decrypt_server_channel] at h
  | Transport t =>
      by_cases hle : envelope.length ≤ envelope.payload.length
      · simp only [decrypt_server_channel, if_pos hle] at h
        cases hr : t.read_message (envelope.payload.take envelope.length) with
        | none => rw [hr] at h; cases h
        | some result =>
            rw [hr] at h
            simp only [Outcome.ok.injEq] at h
            exact ⟨_, h.1.symm⟩
      · simp only [decrypt_server_channel, if_neg hle] at h
        cases h

theorem connect_preserved (st : ClientState) :
    outcomePreserved st (connect st) := by
  cases hsv : st.server with
  | none =>
      simp only [connect, hsv]
      exact outcomePreserved_err _ _ _ (transportPreserved_refl st)
  | some sv =>
      cases sv with
      | Handshake hs =>
          simp only [connect, hsv]
          exact outcomePreserved_ok _ _ _
            ⟨peersPreserved_refl _, serverPreserved_of_handshake_before _ _ hs hsv⟩
      | Transport t =>
          simp only [connect, hsv]
          exact outcomePreserved_err _ _ _ (transportPreserved_refl st)

theorem connect_peer_preserved (st : ClientState) (publicKey : Bytes) :
    outcomePreserved st (connect_peer st publicKey) := by
  cases hlk : lookupPeer st.peers publicKey with
  | some p =>
      simp only [connect_peer, hlk]
      exact outcomePreserved_err _ _ _ (transportPreserved_refl st)
  | none =>
      simp only [connect_peer, hlk]
      exact outcomePreserved_ok _ _ _
        ⟨peersPreserved_insert_of_absent _ _ _ hlk, serverPreserved_refl _⟩

theorem relay_preserved (st : ClientState) (publicKey : Bytes)
    (payload : Bytes) (encoding : Encoding) (broadcast : Bool)
    (sessionId : Option SessionId) :
    outcomePreserved st (relay st publicKey payload encoding broadcast sessionId) := by
  cases hlk : lookupPeer st.peers publicKey with
  | none =>
      simp only [relay, hlk]
      exact outcomePreserved_err _ _ _ (transportPreserved_refl st)
  | some peer =>
      simp only [relay, hlk]
      cases he : encrypt_peer_channel publicKey peer payload encoding broadcast
          sessionId with
      | ok peer2 req =>
          obtain ⟨u, hu⟩ :=
            encrypt_peer_channel_ok_transport _ _ _ _ _ _ _ _ he
          subst hu
          exact outcomePreserved_ok _ _ _
            ⟨peersPreserved_insert_transport _ _ _, serverPreserved_refl _⟩
      | err p e =>
          exact outcomePreserved_err _ _ _ (transportPreserved_refl st)
      | panic m => exact outcomePreserved_panic _ _

theorem request_preserved (st : ClientState) (message : ServerMessage) :
    outcomePreserved st (request st message) := by
  cases hsv : st.server with
  | none =>
      simp only [request, hsv]
      exact outcomePreserved_panic _ _
  | some server =>
      simp only [request, hsv]
      cases he : encrypt_server_channel server (encode message) false with
      | ok server2 envelope =>
          cases server with
          | Handshake hs => simp [encrypt_server_channel] at he
          | Transport t =>
              simp only [encrypt_server_channel, Outcome.ok.injEq] at he
              exact outcomePreserved_ok _ _ _
                ⟨peersPreserved_refl _, he.1 ▸ serverPreserved_transport _ _⟩
      | err p e =>
          exact outcomePreserved_err _ _ _ (transportPreserved_refl st)
      | panic m => exact outcomePreserved_panic _ _

theorem server_handshake_preserved (st : ClientState) (len : Nat)
    (buf : Bytes) : outcomePreserved st (server_handshake st len buf) := by
  cases hsv : st.server with
  | none =>
      simp only [server_handshake, hsv]
      exact outcomePreserved_err _ _ _
        ⟨peersPreserved_refl _, serverPreserved_none _⟩
  | some sv =>
      cases sv with
      | Transport t =>
          simp only [server_handshake, hsv]
          exact outcomePreserved_err _ _ _
            ⟨peersPreserved_refl _, serverPreserved_none _⟩
      | Handshake initiator =>
          simp only [server_handshake, hsv]
          by_cases hle : len ≤ buf.length
          · rw [if_pos hle]
            cases hr : initiator.read_message (buf.take len) with
            | some initiator2 =>
                exact outcomePreserved_ok _ _ _
                  ⟨peersPreserved_refl _, serverPreserved_transport _ _⟩
            | none =>
                exact outcomePreserved_err _ _ _
                  ⟨peersPreserved_refl _, serverPreserved_none _⟩
          · rw [if_neg hle]
            exact outcomePreserved_panic _ _

theorem peer_handshake_responder_preserved (st : ClientState)
    (publicKey : Bytes) (len : Nat) (buf : Bytes) :
    outcomePreserved st (peer_handshake_responder st publicKey len buf) := by
  cases hlk : lookupPeer st.peers publicKey with
  | some p =>
      simp only [peer_handshake_responder, hlk]
      exact outcomePreserved_err _ _ _ (transportPreserved_refl st)
  | none =>
      simp only [peer_handshake_responder, hlk]
      by_cases hle : len ≤ buf.length
      · rw [if_pos hle]
        cases hr : NoiseHandshakeState.read_message ⟨false⟩ (buf.take len) with
        | some responder2 =>
            exact outcomePreserved_ok _ _ _
              ⟨peersPreserved_insert_of_absent _ _ _ hlk, serverPreserved_refl _⟩
        | none =>
            exact outcomePreserved_err _ _ _ (transportPreserved_refl st)
      · rw [if_neg hle]
        exact outcomePreserved_panic _ _

theorem peer_handshake_ack_preserved (st : ClientState) (publicKey : Bytes)
    (len : Nat) (buf : Bytes) (hu : uniqueKeys st.peers) :
    outcomePreserved st (peer_handshake_ack st publicKey len buf) := by
  cases hlk : lookupPeer st.peers publicKey with
  | none =>
      simp only [peer_handshake_ack, hlk]
      exact outcomePreserved_err _ _ _ (transportPreserved_refl st)
  | some peer =>
      simp only [peer_handshake_ack, hlk]
      cases peer with
      | Transport t =>
          exact outcomePreserved_err _ _ _
            ⟨peersPreserved_erase _ _ hu, serverPreserved_refl _⟩
      | Handshake initiator =>
          dsimp only
          by_cases hle : len ≤ buf.length
          · rw [if_pos hle]
            cases hr : initiator.read_message (buf.take len) with
            | some initiator2 =>
                exact outcomePreserved_ok _ _ _
                  ⟨peersPreserved_insert_erase_transport _ _ _,
                    serverPreserved_refl _⟩
            | none =>
                exact outcomePreserved_err _ _ _
                  ⟨peersPreserved_erase _ _ hu, serverPreserved_refl _⟩
          · rw [if_neg hle]
            exact outcomePreserved_panic _ _

theorem handle_relayed_message_preserved (st : ClientState)
    (publicKey : Bytes) (envelope : SealedEnvelope)
    (sessionId : Option SessionId) :
    outcomePreserved st (handle_relayed_message st publicKey envelope sessionId) := by
  cases hlk : lookupPeer st.peers publicKey with
  | none =>
      simp only [handle_relayed_message, hlk]
      exact outcomePreserved_err _ _ _ (transportPreserved_refl st)
  | some peer =>
      simp only [handle_relayed_message, hlk]
      cases hd : decrypt_peer_channel peer envelope with
      | ok peer2 contents =>
          obtain ⟨u, hu2⟩ := decrypt_peer_channel_ok_transport _ _ _ _ hd
          subst hu2
          cases envelope.encoding with
          | Noop => exact outcomePreserved_panic _ _
          | Blob =>
              exact outcomePreserved_ok _ _ _
                ⟨peersPreserved_insert_transport _ _ _, serverPreserved_refl _⟩
          | Json =>
              exact outcomePreserved_ok _ _ _
                ⟨peersPreserved_insert_transport _ _ _, serverPreserved_refl _⟩
      | err p e =>
          exact outcomePreserved_err _ _ _ (transportPreserved_refl st)
      | panic m => exact outcomePreserved_panic _ _

theorem handle_server_channel_message_preserved (st st2 : ClientState)
    (message : ServerMessage) (h : transportPreserved st st2) :
    outcomePreserved st (handle_server_channel_message st2 message) := by
  cases message <;>
    simp only [handle_server_channel_message] <;>
    first
      | exact outcomePreserved_ok _ _ _ h
      | exact outcomePreserved_err _ _ _ h

theorem handle_incoming_message_preserved (st : ClientState)
    (incoming : ResponseMessage) (hu : uniqueKeys st.peers) :
    outcomePreserved st (handle_incoming_message st incoming) := by
  cases incoming with
  | Transparent tmsg =>
      cases tmsg with
      | ServerHandshake hmsg =>
          cases hmsg with
          | Initiator len buf => exact outcomePreserved_panic _ _
          | Responder len buf =>
              have h := server_handshake_preserved st len buf
              simp only [handle_incoming_message]
              cases hs : server_handshake st len buf with
              | ok st2 event => rw [hs] at h; exact outcomePreserved_ok _ _ _ h
              | err st2 e => rw [hs] at h; exact outcomePreserved_err _ _ _ h
              | panic m => exact outcomePreserved_panic _ _
      | PeerHandshake publicKey hmsg =>
          cases hmsg with
          | Initiator len buf =>
              exact peer_handshake_responder_preserved st publicKey len buf
          | Responder len buf =>
              have h := peer_handshake_ack_preserved st publicKey len buf hu
              simp only [handle_incoming_message]
              cases hs : peer_handshake_ack st publicKey len buf with
              | ok st2 event => rw [hs] at h; exact outcomePreserved_ok _ _ _ h
              | err st2 e => rw [hs] at h; exact outcomePreserved_err _ _ _ h
              | panic m => exact outcomePreserved_panic _ _
  | Opaque omsg =>
      cases omsg with
      | PeerMessage publicKey sessionId envelope =>
          have h := handle_relayed_message_preserved st publicKey envelope sessionId
          simp only [handle_incoming_message]
          cases hs : handle_relayed_message st publicKey envelope sessionId with
          | ok st2 event => rw [hs] at h; exact outcomePreserved_ok _ _ _ h
          | err st2 e => rw [hs] at h; exact outcomePreserved_err _ _ _ h
          | panic m => exact outcomePreserved_panic _ _
      | ServerMessage envelope =>
          simp only [handle_incoming_message]
          cases hsv : st.server with
          | none => exact outcomePreserved_panic _ _
          | some server =>
              dsimp only
              cases hd : decrypt_server_channel server envelope with
              | ok server2 decrypted =>
                  dsimp only
                  obtain ⟨u, hu2⟩ :=
                    decrypt_server_channel_ok_transport _ _ _ _ hd
                  subst hu2
                  have hpres : transportPreserved st
                      { st with server := some (ProtocolState.Transport u) } :=
                    ⟨peersPreserved_refl _, serverPreserved_transport _ _⟩
                  cases decrypted.1 with
                  | Blob =>
                      cases hdec : decodeServerMessage decrypted.2 with
                      | some message =>
                          exact handle_server_channel_message_preserved
                            _ _ message hpres
                      | none => exact outcomePreserved_err _ _ _ hpres
                  | Noop => exact outcomePreserved_panic _ _
                  | Json => exact outcomePreserved_panic _ _
              | err p e =>
                  exact outcomePreserved_err _ _ _ (transportPreserved_refl st)
              | panic m => exact outcomePreserved_panic _ _

theorem applyOp_preserved (st : ClientState) (op : ClientOp)
    (hu : uniqueKeys st.peers) : outcomePreserved st (applyOp st op) := by
  cases op with
  | connectOp =>
      have h := connect_preserved st
      simp only [applyOp]
      cases hs : connect st with
      | ok st2 v => rw [hs] at h; exact outcomePreserved_ok _ _ _ h
      | err st2 e => rw [hs] at h; exact outcomePreserved_err _ _ _ h
      | panic m => exact outcomePreserved_panic _ _
  | connectPeer publicKey =>
      have h := connect_peer_preserved st publicKey
      simp only [applyOp]
      cases hs : connect_peer st publicKey with
      | ok st2 v => rw [hs] at h; exact outcomePreserved_ok _ _ _ h
      | err st2 e => rw [hs] at h; exact outcomePreserved_err _ _ _ h
      | panic m => exact outcomePreserved_panic _ _
  | sendOp publicKey jsonPayload sessionId =>
      have h := relay_preserved st publicKey jsonPayload Encoding.Json false
        sessionId
      simp only [applyOp, send]
      cases hs : relay st publicKey jsonPayload Encoding.Json false sessionId with
      | ok st2 v => rw [hs] at h; exact outcomePreserved_ok _ _ _ h
      | err st2 e => rw [hs] at h; exact outcomePreserved_err _ _ _ h
      | panic m => exact outcomePreserved_panic _ _
  | sendBlob publicKey payload sessionId =>
      have h := relay_preserved st publicKey payload Encoding.Blob false
        sessionId
      simp only [applyOp, send_blob]
      cases hs : relay st publicKey payload Encoding.Blob false sessionId with
      | ok st2 v => rw [hs] at h; exact outcomePreserved_ok _ _ _ h
      | err st2 e => rw [hs] at h; exact outcomePreserved_err _ _ _ h
      | panic m => exact outcomePreserved_panic _ _
  | relayOp publicKey payload encoding broadcast sessionId =>
      have h := relay_preserved st publicKey payload encoding broadcast
        sessionId
      simp only [applyOp]
      cases hs : relay st publicKey payload encoding broadcast sessionId with
      | ok st2 v => rw [hs] at h; exact outcomePreserved_ok _ _ _ h
      | err st2 e => rw [hs] at h; exact outcomePreserved_err _ _ _ h
      | panic m => exact outcomePreserved_panic _ _
  | requestOp message =>
      have h := request_preserved st message
      simp only [applyOp]
      cases hs : request st message with
      | ok st2 v => rw [hs] at h; exact outcomePreserved_ok _ _ _ h
      | err st2 e => rw [hs] at h; exact outcomePreserved_err _ _ _ h
      | panic m => exact outcomePreserved_panic _ _
  | dispatch incoming => exact handle_incoming_message_preserved st incoming hu

theorem runStep_preserved (client : ClientState) (q : List ResponseMessage)
    (input : LoopInput) (hu : uniqueKeys client.peers) :
    ∀ out, runStep ⟨client, q⟩ input = RunStep.next out →
      transportPreserved client out.state.client := by
  intro out h
  cases input with
  | wsBinary d =>
      cases d with
      | some r =>
          simp only [runStep, RunStep.next.injEq] at h
          subst h
          exact transportPreserved_refl client
      | none =>
          simp only [runStep, RunStep.next.injEq] at h
          subst h
          exact transportPreserved_refl client
  | wsNonBinary =>
      simp only [runStep, RunStep.next.injEq] at h
      subst h
      exact transportPreserved_refl client
  | wsError =>
      simp only [runStep, RunStep.next.injEq] at h
      subst h
      exact transportPreserved_refl client
  | wsClosed =>
      simp only [runStep, RunStep.next.injEq] at h
      subst h
      exact transportPreserved_refl client
  | outboundItem m sendOk =>
      cases sendOk with
      | true =>
          simp only [runStep, if_true, RunStep.next.injEq] at h
          subst h
          exact transportPreserved_refl client
      | false =>
          simp only [runStep, Bool.false_eq_true, if_false,
            RunStep.next.injEq] at h
          subst h
          exact transportPreserved_refl client
  | outboundClosed =>
      simp only [runStep, RunStep.next.injEq] at h
      subst h
      exact transportPreserved_refl client
  | decodedReady =>
      simp only [runStep] at h
      cases hq : q with
      | nil =>
          rw [hq] at h
          dsimp only at h
          simp only [RunStep.next.injEq] at h
          subst h
          exact transportPreserved_refl client
      | cons r rest =>
          rw [hq] at h
          dsimp only at h
          have hp := handle_incoming_message_preserved client r hu
          cases hs : handle_incoming_message client r with
          | ok c2 ev =>
              rw [hs] at h hp
              cases ev with
              | some event =>
                  dsimp only at h
                  simp only [RunStep.next.injEq] at h
                  subst h
                  exact hp
              | none =>
                  dsimp only at h
                  simp only [RunStep.next.injEq] at h
                  subst h
                  exact hp
          | err c2 e =>
              rw [hs] at h hp
              dsimp only at h
              simp only [RunStep.next.injEq] at h
              subst h
              exact hp
          | panic m =>
              rw [hs] at h
              dsimp only at h
              cases h

/-- Claim C1: the spec states that the server channel is inhabited from
construction for the client's entire lifetime and that the `unreachable!()`
branch in `NativeClient::request` can never be taken.  The code violates
this: `EventLoop::server_handshake` begins with `state.take()`, and its
error paths return without restoring the value.  Concretely, dispatching a
duplicate `Transparent::ServerHandshake(Responder(..))` while the channel
is already in `Transport` takes the state, returns `NotHandshakeState` and
leaves the channel `None`; the next `NativeClient::request` (here a
`CloseSession`) then reaches the `unreachable!()` and panics. -/
theorem server_channel_lost_on_duplicate_handshake :
    server_handshake ⟨[0], some (ProtocolState.Transport ⟨0, 0⟩), [], []⟩ 0 []
        = Outcome.err ⟨[0], none, [], []⟩ Error.NotHandshakeState ∧
    request ⟨[0], none, [], []⟩ (ServerMessage.CloseSession 0)
        = Outcome.panic "internal error: entered unreachable code" :=
  ⟨rfl, rfl⟩

/-- Claim C2, counterexample: the claim states that
`EventLoop::peer_handshake_ack` never leaves a previously-`Transport` entry
absent.  But with the registry holding key `[1]` in `Transport`,
`peer_handshake_ack` removes the entry, hits the wrong-state arm, returns
`NotHandshakeState` and never reinserts it: the resulting registry is empty,
so the previously-`Transport` entry is absent. -/
theorem peer_handshake_ack_drops_transport_entry :
    peer_handshake_ack
        ⟨[0], none, [([1], ProtocolState.Transport ⟨0, 0⟩)], []⟩ [1] 0 []
      = Outcome.err ⟨[0], none, [], []⟩ Error.NotHandshakeState :=
  rfl

/-- Claim C2 (amended): transport state is monotone per operation, up to
removal: for every operation of the client facade and of the event loop, a
channel (server channel or registry entry) that is in `Transport` before the
operation is, whenever it is still present afterwards, still in `Transport`;
no operation ever moves a channel from `Transport` back to `Handshake`.  The
claim's stronger "present at all later times" fails because the error paths
of `peer_handshake_ack` and `server_handshake` can remove a `Transport`
channel outright (see the counterexample). -/
theorem transport_state_monotone_per_operation (st : ClientState)
    (op : ClientOp) (q : List ResponseMessage) (input : LoopInput)
    (hu : uniqueKeys st.peers) :
    transportPreserved st (stepState st op) ∧
    (∀ out, runStep ⟨st, q⟩ input = RunStep.next out →
      transportPreserved st out.state.client) := by
  constructor
  · have h := applyOp_preserved st op hu
    unfold stepState
    cases hs : applyOp st op with
    | ok st2 v => rw [hs] at h; exact h
    | err st2 e => rw [hs] at h; exact h
    | panic m => exact transportPreserved_refl st
  · exact runStep_preserved st q input hu

theorem transport_state_monotone_per_operation_witness :
    transportPreserved ⟨[0], none, [], []⟩
      (stepState ⟨[0], none, [], []⟩ ClientOp.connectOp) :=
  (transport_state_monotone_per_operation ⟨[0], none, [], []⟩
    ClientOp.connectOp [] LoopInput.wsClosed trivial).1

/-- Claim C3, counterexample: the claim states that a decryptable peer
message with `Encoding::Noop`, and a server message whose decrypted inner
encoding is not `Blob`, are reported as error values.  In the code both hit
a panic (`unreachable!()` resp.
`panic!("unexpected encoding received from server")`), aborting the task
instead of yielding an error: here concretely for a registered `Transport`
peer `[1]` and for a `Transport` server channel. -/
theorem unexpected_variant_panics_concrete :
    handle_incoming_message
        ⟨[0], none, [([1], ProtocolState.Transport ⟨0, 0⟩)], []⟩
        (ResponseMessage.Opaque (OpaqueMessage.PeerMessage [1] none
          ⟨17, Encoding.Noop, 9 :: noiseTag, false⟩))
      = Outcome.panic "internal error: entered unreachable code" ∧
    handle_incoming_message
        ⟨[0], some (ProtocolState.Transport ⟨0, 0⟩), [], []⟩
        (ResponseMessage.Opaque (OpaqueMessage.ServerMessage
          ⟨17, Encoding.Json, 9 :: noiseTag, false⟩))
      = Outcome.panic "unexpected encoding received from server" :=
  ⟨rfl, rfl⟩

/-- Claim C3 (amended): receipt of a well-formed but unexpected variant —
an inbound `Opaque::PeerMessage` whose envelope decrypts with encoding
`Noop`, or an `Opaque::ServerMessage` whose decrypted inner encoding is not
`Blob` — makes dispatch panic (abort), rather than return an error value on
the event stream. -/
theorem unexpected_variant_aborts_dispatch :
    (∀ (st : ClientState) (pk : Bytes) (sid : Option SessionId)
        (env : SealedEnvelope) (peer peer2 : ProtocolState) (contents : Bytes),
      lookupPeer st.peers pk = some peer →
      decrypt_peer_channel peer env = Outcome.ok peer2 contents →
      env.encoding = Encoding.Noop →
      handle_incoming_message st
          (ResponseMessage.Opaque (OpaqueMessage.PeerMessage pk sid env))
        = Outcome.panic "internal error: entered unreachable code") ∧
    (∀ (st : ClientState) (env : SealedEnvelope)
        (server server2 : ProtocolState) (enc : Encoding) (contents : Bytes),
      st.server = some server →
      decrypt_server_channel server env = Outcome.ok server2 (enc, contents) →
      enc ≠ Encoding.Blob →
      handle_incoming_message st
          (ResponseMessage.Opaque (OpaqueMessage.ServerMessage env))
        = Outcome.panic "unexpected encoding received from server") := by
  constructor
  · intro st pk sid env peer peer2 contents h1 h2 h3
    simp only [handle_incoming_message, handle_relayed_message, h1, h2, h3]
  · intro st env server server2 enc contents h1 h2 h3
    cases enc with
    | Blob => exact absurd rfl h3
    | Noop => simp only [handle_incoming_message, h1, h2]
    | Json => simp only [handle_incoming_message, h1, h2]

theorem unexpected_variant_aborts_dispatch_witness :
    handle_incoming_message
        ⟨[4], none, [([2], ProtocolState.Transport ⟨0, 0⟩)], []⟩
        (ResponseMessage.Opaque (OpaqueMessage.PeerMessage [2] (some 3)
          ⟨16, Encoding.Noop, noiseTag, true⟩))
      = Outcome.panic "internal error: entered unreachable code" ∧
    handle_incoming_message
        ⟨[4], some (ProtocolState.Transport ⟨0, 0⟩), [], []⟩
        (ResponseMessage.Opaque (OpaqueMessage.ServerMessage
          ⟨16, Encoding.Noop, noiseTag, true⟩))
      = Outcome.panic "unexpected encoding received from server" :=
  ⟨unexpected_variant_aborts_dispatch.1 _ [2] (some 3) _
      (ProtocolState.Transport ⟨0, 0⟩) (ProtocolState.Transport ⟨0, 1⟩) []
      (by rfl) (by decide) rfl,
    unexpected_variant_aborts_dispatch.2 _ _
      (ProtocolState.Transport ⟨0, 0⟩) (ProtocolState.Transport ⟨0, 1⟩)
      Encoding.Noop [] (by rfl) (by decide) (by decide)⟩

/-- Claim C4, counterexample: the claim states that when the transport read
half closes, the event stream terminates (after delivering queued errors).
In the code the `None` arm of the websocket-read branch of `select!` is
`_ => {}`: at this concrete loop state the close is ignored, nothing is
yielded, and the loop continues — the generator never returns, so the
stream does not terminate. -/
theorem transport_close_ignored_concrete :
    runStep ⟨⟨[0], none, [], []⟩, []⟩ LoopInput.wsClosed
      = RunStep.next ⟨⟨⟨[0], none, [], []⟩, []⟩, [], true⟩ :=
  rfl

/-- Claim C4 (amended): transport close does not terminate the event
stream: the close is ignored (no yield, state unchanged) and the loop
continues; more generally no loop iteration ever exits the
`loop { select!(..) }` — the only way the stream ends of its own accord is
a dispatch panic, which aborts the whole task. -/
theorem event_loop_never_terminates :
    (∀ st : LoopState,
      runStep st LoopInput.wsClosed = RunStep.next ⟨st, [], true⟩) ∧
    (∀ (st : LoopState) (input : LoopInput) (out : StepOut),
      runStep st input = RunStep.next out → out.continues = true) := by
  constructor
  · intro st
    rfl
  · intro st input out h
    cases input with
    | wsBinary d =>
        cases d with
        | some r =>
            simp only [runStep, RunStep.next.injEq] at h
            subst h
            rfl
        | none =>
            simp only [runStep, RunStep.next.injEq] at h
            subst h
            rfl
    | wsNonBinary =>
        simp only [runStep, RunStep.next.injEq] at h
        subst h
        rfl
    | wsError =>
        simp only [runStep, RunStep.next.injEq] at h
        subst h
        rfl
    | wsClosed =>
        simp only [runStep, RunStep.next.injEq] at h
        subst h
        rfl
    | outboundItem m sendOk =>
        cases sendOk with
        | true =>
            simp only [runStep, if_true, RunStep.next.injEq] at h
            subst h
            rfl
        | false =>
            simp only [runStep, Bool.false_eq_true, if_false,
              RunStep.next.injEq] at h
            subst h
            rfl
    | outboundClosed =>
        simp only [runStep, RunStep.next.injEq] at h
        subst h
        rfl
    | decodedReady =>
        simp only [runStep] at h
        cases hq : st.msgQueue with
        | nil =>
            rw [hq] at h
            dsimp only at h
            simp only [RunStep.next.injEq] at h
            subst h
            rfl
        | cons r rest =>
            rw [hq] at h
            dsimp only at h
            cases hs : handle_incoming_message st.client r with
            | ok c2 ev =>
                rw [hs] at h
                cases ev with
                | some event =>
                    dsimp only at h
                    simp only [RunStep.next.injEq] at h
                    subst h
                    rfl
                | none =>
                    dsimp only at h
                    simp only [RunStep.next.injEq] at h
                    subst h
                    rfl
            | err c2 e =>
                rw [hs] at h
                dsimp only at h
                simp only [RunStep.next.injEq] at h
                subst h
                rfl
            | panic m =>
                rw [hs] at h
                dsimp only at h
                cases h

theorem event_loop_never_terminates_witness :
    runStep ⟨⟨[1], none, [], []⟩, []⟩ LoopInput.wsClosed
        = RunStep.next ⟨⟨⟨[1], none, [], []⟩, []⟩, [], true⟩ ∧
    (⟨⟨⟨[1], none, [], []⟩, []⟩, [], true⟩ : StepOut).continues = true :=
  ⟨event_loop_never_terminates.1 _,
    event_loop_never_terminates.2 ⟨⟨[1], none, [], []⟩, []⟩
      LoopInput.wsClosed ⟨⟨⟨[1], none, [], []⟩, []⟩, [], true⟩ (by rfl)⟩

/-- Claim C5: for every peer `ProtocolState` in `Transport` mode and every
plaintext payload, a successful `encrypt_peer_channel` returns a
`RequestMessage` that is an `Opaque::PeerMessage` for that peer key and
session, whose `SealedEnvelope` has `length = plaintext length + TAGLEN`
and carries the given encoding and broadcast flag. -/
theorem encrypt_peer_channel_envelope_shape (pk : Bytes)
    (t : NoiseTransportState) (payload : Bytes) (enc : Encoding) (b : Bool)
    (sid : Option SessionId) (peer2 : ProtocolState) (req : RequestMessage)
    (h : encrypt_peer_channel pk (ProtocolState.Transport t) payload enc b sid
      = Outcome.ok peer2 req) :
    ∃ env : SealedEnvelope,
      req = RequestMessage.Opaque (OpaqueMessage.PeerMessage pk sid env) ∧
      env.length = payload.length + TAGLEN ∧
      env.encoding = enc ∧ env.broadcast = b := by
  simp only [encrypt_peer_channel, Outcome.ok.injEq] at h
  refine ⟨_, h.2.symm, ?_, rfl, rfl⟩
  simp [NoiseTransportState.write_message, noiseTag, TAGLEN]

theorem encrypt_peer_channel_envelope_shape_witness :
    ∃ env : SealedEnvelope,
      RequestMessage.Opaque (OpaqueMessage.PeerMessage [5] none
          ⟨19, Encoding.Json, 1 :: 2 :: 3 :: noiseTag, true⟩)
        = RequestMessage.Opaque (OpaqueMessage.PeerMessage [5] none env) ∧
      env.length = ([1, 2, 3] : Bytes).length + TAGLEN ∧
      env.encoding = Encoding.Json ∧ env.broadcast = true :=
  encrypt_peer_channel_envelope_shape [5] ⟨0, 0⟩ [1, 2, 3] Encoding.Json
    true none (ProtocolState.Transport ⟨1, 0⟩)
    (RequestMessage.Opaque (OpaqueMessage.PeerMessage [5] none
      ⟨19, Encoding.Json, 1 :: 2 :: 3 :: noiseTag, true⟩))
    (by decide)

/-- Claim C6: when an inbound `Transparent::PeerHandshake` initiator message
arrives for a peer key that already has a registry entry,
`EventLoop::peer_handshake_responder` fails with
`PeerAlreadyExistsMaybeRace` before any mutation: the state (registry
including the existing entry, and outbound queue — so no responder reply is
enqueued) is returned unchanged, and the dispatch outcome is an error, so no
`PeerConnected` event is emitted. -/
theorem peer_handshake_responder_race_safe (st : ClientState) (pk : Bytes)
    (len : Nat) (buf : Bytes) (p : ProtocolState)
    (h : lookupPeer st.peers pk = some p) :
    peer_handshake_responder st pk len buf
        = Outcome.err st Error.PeerAlreadyExistsMaybeRace ∧
    handle_incoming_message st
        (ResponseMessage.Transparent
          (TransparentMessage.PeerHandshake pk
            (HandshakeMessage.Initiator len buf)))
        = Outcome.err st Error.PeerAlreadyExistsMaybeRace := by
  constructor
  · simp only [peer_handshake_responder, h]
  · simp only [handle_incoming_message, peer_handshake_responder, h]

theorem peer_handshake_responder_race_safe_witness :
    peer_handshake_responder
        ⟨[0], none, [([3], ProtocolState.Handshake ⟨true⟩)], []⟩ [3] 0 []
        = Outcome.err ⟨[0], none, [([3], ProtocolState.Handshake ⟨true⟩)], []⟩
            Error.PeerAlreadyExistsMaybeRace ∧
    handle_incoming_message
        ⟨[0], none, [([3], ProtocolState.Handshake ⟨true⟩)], []⟩
        (ResponseMessage.Transparent
          (TransparentMessage.PeerHandshake [3]
            (HandshakeMessage.Initiator 0 [])))
        = Outcome.err ⟨[0], none, [([3], ProtocolState.Handshake ⟨true⟩)], []⟩
            Error.PeerAlreadyExistsMaybeRace :=
  peer_handshake_responder_race_safe _ [3] 0 []
    (ProtocolState.Handshake ⟨true⟩) (by rfl)

/-- Claim C7: for every peer key, `relay` (hence `send` and `send_blob`,
which delegate to it) and `EventLoop::handle_relayed_message` fail with
`PeerNotFound` when the registry has no entry for that key, and with
`NotTransportState` when the entry exists but is still in `Handshake`; in
both failure cases the returned state equals the input state, so nothing
was enqueued on the outbound queue, and the outcome is an error, so no
event is emitted. -/
theorem peer_channel_failure_modes (pk payload : Bytes) (enc : Encoding)
    (b : Bool) (sid : Option SessionId) (env : SealedEnvelope) :
    (∀ st : ClientState, lookupPeer st.peers pk = none →
      relay st pk payload enc b sid = Outcome.err st (Error.PeerNotFound pk) ∧
      send st pk payload sid = Outcome.err st (Error.PeerNotFound pk) ∧
      send_blob st pk payload sid = Outcome.err st (Error.PeerNotFound pk) ∧
      handle_relayed_message st pk env sid
        = Outcome.err st (Error.PeerNotFound pk)) ∧
    (∀ (st : ClientState) (hs : NoiseHandshakeState),
      lookupPeer st.peers pk = some (ProtocolState.Handshake hs) →
      relay st pk payload enc b sid = Outcome.err st Error.NotTransportState ∧
      send st pk payload sid = Outcome.err st Error.NotTransportState ∧
      send_blob st pk payload sid = Outcome.err st Error.NotTransportState ∧
      handle_relayed_message st pk env sid
        = Outcome.err st Error.NotTransportState) := by
  constructor
  · intro st h
    refine ⟨?_, ?_, ?_, ?_⟩
    · simp only [relay, h]
    · simp only [send, relay, h]
    · simp only [send_blob, relay, h]
    · simp only [handle_relayed_message, h]
  · intro st hs h
    refine ⟨?_, ?_, ?_, ?_⟩
    · simp only [relay, h, encrypt_peer_channel]
    · simp only [send, relay, h, encrypt_peer_channel]
    · simp only [send_blob, relay, h, encrypt_peer_channel]
    · simp only [handle_relayed_message, h, decrypt_peer_channel]

theorem peer_channel_failure_modes_witness :
    (relay ⟨[0], none, [], []⟩ [2] [7] Encoding.Blob false none
        = Outcome.err ⟨[0], none, [], []⟩ (Error.PeerNotFound [2]) ∧
      send ⟨[0], none, [], []⟩ [2] [7] none
        = Outcome.err ⟨[0], none, [], []⟩ (Error.PeerNotFound [2]) ∧
      send_blob ⟨[0], none, [], []⟩ [2] [7] none
        = Outcome.err ⟨[0], none, [], []⟩ (Error.PeerNotFound [2]) ∧
      handle_relayed_message ⟨[0], none, [], []⟩ [2]
          ⟨16, Encoding.Blob, noiseTag, false⟩ none
        = Outcome.err ⟨[0], none, [], []⟩ (Error.PeerNotFound [2])) ∧
    (relay ⟨[0], none, [([2], ProtocolState.Handshake ⟨true⟩)], []⟩ [2] [7]
          Encoding.Blob false none
        = Outcome.err ⟨[0], none, [([2], ProtocolState.Handshake ⟨true⟩)], []⟩
            Error.NotTransportState ∧
      send ⟨[0], none, [([2], ProtocolState.Handshake ⟨true⟩)], []⟩ [2] [7] none
        = Outcome.err ⟨[0], none, [([2], ProtocolState.Handshake ⟨true⟩)], []⟩
            Error.NotTransportState ∧
      send_blob ⟨[0], none, [([2], ProtocolState.Handshake ⟨true⟩)], []⟩ [2]
          [7] none
        = Outcome.err ⟨[0], none, [([2], ProtocolState.Handshake ⟨true⟩)], []⟩
            Error.NotTransportState ∧
      handle_relayed_message
          ⟨[0], none, [([2], ProtocolState.Handshake ⟨true⟩)], []⟩ [2]
          ⟨16, Encoding.Blob, noiseTag, false⟩ none
        = Outcome.err ⟨[0], none, [([2], ProtocolState.Handshake ⟨true⟩)], []⟩
            Error.NotTransportState) :=
  ⟨(peer_channel_failure_modes [2] [7] Encoding.Blob false none
      ⟨16, Encoding.Blob, noiseTag, false⟩).1 _ (by rfl),
    (peer_channel_failure_modes [2] [7] Encoding.Blob false none
      ⟨16, Encoding.Blob, noiseTag, false⟩).2 _ ⟨true⟩ (by rfl)⟩

/-- Claim C8: for every valid server handshake responder message received
while the server channel is in `Handshake` state (the Noise read succeeds),
dispatch transitions the server channel to `Transport` and yields exactly
one `ServerConnected` event whose `server_key` is the state's
`serverPublicKey` — the `server_public_key` the client was configured with,
as set by `NativeClient::new` and never modified (see the witness, which
starts from `NativeClient.new`). -/
theorem server_handshake_transitions_and_emits (st : ClientState)
    (len : Nat) (buf : Bytes) (hs hs2 : NoiseHandshakeState)
    (h1 : st.server = some (ProtocolState.Handshake hs))
    (h2 : len ≤ buf.length)
    (h3 : hs.read_message (buf.take len) = some hs2) :
    handle_incoming_message st
        (ResponseMessage.Transparent
          (TransparentMessage.ServerHandshake
            (HandshakeMessage.Responder len buf)))
      = Outcome.ok
          { st with
            server := some (ProtocolState.Transport hs2.into_transport_mode) }
          (some (Event.ServerConnected st.serverPublicKey)) := by
  simp only [handle_incoming_message, server_handshake, h1, if_pos h2, h3]

theorem server_handshake_transitions_and_emits_witness :
    handle_incoming_message (NativeClient.new [9])
        (ResponseMessage.Transparent
          (TransparentMessage.ServerHandshake
            (HandshakeMessage.Responder 16 noiseTag)))
      = Outcome.ok ⟨[9], some (ProtocolState.Transport ⟨0, 0⟩), [], []⟩
          (some (Event.ServerConnected [9])) :=
  server_handshake_transitions_and_emits (NativeClient.new [9]) 16 noiseTag
    ⟨true⟩ ⟨true⟩ (by rfl) (by decide) (by decide)

/-- Claim C9: `EventLoop::handle_incoming_message` is partial over
`ResponseMessage`: a well-formed message outside the five handled shapes —
here a `Transparent::ServerHandshake` carrying an `Initiator` message —
falls through to the catch-all arm and panics with "unhandled message"
instead of returning an error. -/
theorem handle_incoming_message_not_total (st : ClientState) (len : Nat)
    (buf : Bytes) :
    handle_incoming_message st
        (ResponseMessage.Transparent
          (TransparentMessage.ServerHandshake
            (HandshakeMessage.Initiator len buf)))
      = Outcome.panic "unhandled message" :=
  rfl

/-- Claim C10: `decrypt_peer_channel` is total only under the precondition
`envelope.length ≤ envelope.payload.len()`: with a `Transport` peer and an
envelope whose `length` (20) exceeds its payload buffer (empty), the slice
`&envelope.payload[..envelope.length]` panics; and under the precondition,
every successful call returns a plaintext of exactly
`envelope.length - TAGLEN` bytes. -/
theorem decrypt_peer_channel_bounds :
    decrypt_peer_channel (ProtocolState.Transport ⟨0, 0⟩)
        ⟨20, Encoding.Blob, [], false⟩ = Outcome.panic "index out of bounds" ∧
    (∀ (peer : ProtocolState) (env : SealedEnvelope) (peer2 : ProtocolState)
        (contents : Bytes),
      env.length ≤ env.payload.length →
      decrypt_peer_channel peer env = Outcome.ok peer2 contents →
      contents.length = env.length - TAGLEN) := by
  constructor
  · rfl
  · intro peer env peer2 contents hle h
    cases peer with
    | Handshake hs => simp [decrypt_peer_channel] at h
    | Transport t =>
        simp only [decrypt_peer_channel, if_pos hle] at h
        cases hr : t.read_message (env.payload.take env.length) with
        | none => rw [hr] at h; cases h
        | some result =>
            rw [hr] at h
            dsimp only at h
            have hct : (env.payload.take env.length).length = env.length := by
              simp only [List.length_take]
              omega
            have hres : result.1.length = env.length - TAGLEN ∧
                TAGLEN ≤ env.length := by
              simp only [NoiseTransportState.read_message] at hr
              by_cases hc : TAGLEN ≤ (env.payload.take env.length).length ∧
                  (env.payload.take env.length).drop
                    ((env.payload.take env.length).length - TAGLEN) = noiseTag
              · rw [if_pos hc] at hr
                obtain ⟨hc1, _⟩ := hc
                rw [hct] at hc1
                constructor
                · rw [← (Option.some.inj hr)]
                  simp only [List.length_take]
                  omega
                · exact hc1
              · rw [if_neg hc] at hr
                cases hr
            obtain ⟨hlen, htag⟩ := hres
            simp only [Outcome.ok.injEq] at h
            rw [← h.2]
            simp only [List.length_take, List.length_append,
              List.length_drop, List.length_replicate]
            omega

theorem decrypt_peer_channel_bounds_witness :
    ([9] : Bytes).length = 17 - TAGLEN :=
  decrypt_peer_channel_bounds.2 (ProtocolState.Transport ⟨0, 0⟩)
    ⟨17, Encoding.Blob, 9 :: noiseTag, false⟩
    (ProtocolState.Transport ⟨0, 1⟩) [9] (by decide) (by decide)

end RelayClient
